import Mathlib

/-!
Verification development for the sales prediction system
(src/sales_prediction_system1.py): a shallow embedding of the
forecasting/aggregation core (revenue decay model, cash-flow event
generation, labor cost amortization, administrative cost expansion,
material cost allocation, monthly budget aggregation, runway projection)
together with theorems settling the specification claims.

Conventions of the embedding:
- Monetary quantities are rationals (the source uses Python floats; all
  claim-relevant arithmetic is exact decimal arithmetic, faithfully
  represented over the rationals).
- Dates are (year, month, day) triples; pandas Timestamp arithmetic
  (DateOffset with month and year shifts, day clamped to the last valid
  day of the target month) is embedded by addMonthsClamped and
  addYearsClamped.
- Month keys in the source are zero-padded "YYYY-MM" strings, whose
  lexical order coincides with chronological order; they are embedded as
  (year, month) integer pairs ordered lexicographically.
- The source applies round(x, 2) when a monetary value is materialized
  into an output row; this is embedded by round2.
-/

namespace SalesPred

/-- A calendar date: year, month (1-12) and day, as carried by
datetime/pandas timestamps in the source. -/
structure Date where
  year : ℤ
  month : ℤ
  day : ℤ
deriving DecidableEq, Repr

/-- Absolute month index year*12 + (month-1). Two dates lie in the same
calendar month iff their indices agree; a month offset adds to it. -/
def monthIndex (d : Date) : ℤ := d.year * 12 + (d.month - 1)

/-- Gregorian leap-year rule used by datetime/pandas calendars. -/
def isLeapYear (y : ℤ) : Bool := (y % 4 == 0 && y % 100 != 0) || (y % 400 == 0)

/-- Number of days of a calendar month in the proleptic Gregorian
calendar, as used by pandas Timestamp arithmetic in the source. -/
def daysInMonth (y m : ℤ) : ℤ :=
  if m = 2 then (if isLeapYear y then 29 else 28)
  else if m = 4 ∨ m = 6 ∨ m = 9 ∨ m = 11 then 30
  else 31

/-- A well-formed calendar date. -/
def validDate (d : Date) : Prop :=
  1 ≤ d.month ∧ d.month ≤ 12 ∧ 1 ≤ d.day ∧ d.day ≤ daysInMonth d.year d.month

instance (d : Date) : Decidable (validDate d) := by
  unfold validDate; exact inferInstance

/-- Chronological order on dates (lexicographic on month index, then day). -/
def dateLe (a b : Date) : Prop :=
  monthIndex a < monthIndex b ∨ (monthIndex a = monthIndex b ∧ a.day ≤ b.day)

instance (a b : Date) : Decidable (dateLe a b) := by
  unfold dateLe; exact inferInstance

/-- The earlier of two dates, as computed by min over timestamps in the source. -/
def dateMin (a b : Date) : Date := if dateLe a b then a else b

/-- The last day of the month of a date. For a first-of-month date this
embeds current_date + DateOffset(months=1) - DateOffset(days=1). -/
def monthEndOf (d : Date) : Date :=
  { year := d.year, month := d.month, day := daysInMonth d.year d.month }

/-- Embedding of pandas d + DateOffset(months=n): shift by n calendar
months keeping the day-of-month, clamped to the last valid day of the
target month. Negative n shifts backwards. -/
def addMonthsClamped (d : Date) (n : ℤ) : Date :=
  { year := (monthIndex d + n) / 12,
    month := (monthIndex d + n) % 12 + 1,
    day := min d.day (daysInMonth ((monthIndex d + n) / 12) ((monthIndex d + n) % 12 + 1)) }

/-- Embedding of pandas d + DateOffset(years=n): same year shift with the
day clamped to the last valid day (Feb 29 maps to Feb 28 off leap years). -/
def addYearsClamped (d : Date) (n : ℤ) : Date :=
  { year := d.year + n,
    month := d.month,
    day := min d.day (daysInMonth (d.year + n) d.month) }

/-- The (year, month) pair denoted by an absolute month index. -/
def pairOfIndex (i : ℤ) : ℤ × ℤ := (i / 12, i % 12 + 1)

/-- The month key of a date: the source formats it as the zero-padded
year-month string YYYY-MM; embedded as the (year, month) pair. -/
def monthKey (d : Date) : ℤ × ℤ := (d.year, d.month)

/-- Absolute month index denoted by a (year, month) key. -/
def keyIndex (p : ℤ × ℤ) : ℤ := p.1 * 12 + (p.2 - 1)

/-- Embedding of round(x, 2) applied by the source when materializing a
monetary value into an output row: round to the nearest multiple of 1/100.
(Tie behavior differs from Python bankers rounding only on exact
half-cents, which no claim exercises.) -/
def round2 (q : ℚ) : ℚ := (round (100 * q) : ℤ) / 100

/-! ## Revenue model (main, add-project handler, lines 996-1003) -/

/-- month_diff: calendar year/month difference from the base date to the
delivery date, clamped below at 0 (the source sets it to 0 when negative). -/
def month_diff (b d : Date) : ℤ :=
  max 0 ((d.year - b.year) * 12 + (d.month - b.month))

/-- time_decay = exp(-lam * monthDiff), the exponential decay factor of
the revenue model (the source uses lam = 0.0315). -/
noncomputable def decayFactor (lam : ℝ) (t : ℤ) : ℝ := Real.exp (-(lam * (t : ℝ)))

/-- expected_revenue = contract_amount * close_rate * time_decay. -/
noncomputable def expectedRevenue (C r lam : ℝ) (b d : Date) : ℝ :=
  C * r * decayFactor lam (month_diff b d)

/-! ## Cash-flow generation (IncomeManager.generate_cash_flow_data) -/

/-- Kind of a generated payment event. -/
inductive PayKind
  | first
  | second
  | warranty
deriving DecidableEq, Repr

/-- A derived cash-flow event row. The amount field carries the value the
source stores in the row, namely round(payment_amount, 2). -/
structure CashFlowEvent where
  kind : PayKind
  payDate : Date
  month : ℤ × ℤ
  amount : ℚ
deriving DecidableEq, Repr

/-- One project pass of IncomeManager.generate_cash_flow_data: ratios are
the stored percentages divided by 100; the warning flag mirrors
abs(total_ratio - 1.0) > 0.001 (non-fatal, the events are emitted either
way); the three events are dated at delivery, delivery + one month and
delivery + one year, each with the stored rounded amount. -/
def generate_cash_flow (R p1 p2 p3 : ℚ) (delivery : Date) : Bool × List CashFlowEvent :=
  (decide ((1 : ℚ)/1000 < |p1 / 100 + p2 / 100 + p3 / 100 - 1|),
    [ { kind := PayKind.first, payDate := delivery,
        month := monthKey delivery, amount := round2 (R * (p1 / 100)) },
      { kind := PayKind.second, payDate := addMonthsClamped delivery 1,
        month := monthKey (addMonthsClamped delivery 1), amount := round2 (R * (p2 / 100)) },
      { kind := PayKind.warranty, payDate := addYearsClamped delivery 1,
        month := monthKey (addYearsClamped delivery 1), amount := round2 (R * (p3 / 100)) } ])

/-! ## Material cost allocation (IncomeManager.generate_material_cost_data) -/

/-- Association-list lookup (Python dict get). -/
def alookup {α β : Type} [DecidableEq α] : List (α × β) → α → Option β
  | [], _ => none
  | (k, v) :: rest, a => if k = a then some v else alookup rest a

/-- The literal fallback ratio table of the source (fractions of 0.30,
0.35, 0.40 per business line). -/
def defaultMaterialRatios : List (String × ℚ) :=
  [("光谱设备/服务", 30/100), ("配液设备", 35/100), ("自动化项目", 40/100)]

/-- material_ratios.get(line, DEFAULT.get(line, 0.30)): the configured
table, then the built-in table, then the 0.30 default. -/
def lookupRatio (table : List (String × ℚ)) (line : String) : ℚ :=
  match alookup table line with
  | some r => r
  | none => (alookup defaultMaterialRatios line).getD (30/100)

/-- A derived material cost row; amount is the stored round(cost, 2). -/
structure MaterialCost where
  month : ℤ × ℤ
  amount : ℚ
  ratio : ℚ
  payDate : Date
deriving DecidableEq, Repr

/-- One project pass of IncomeManager.generate_material_cost_data:
cost = corrected revenue * ratio, recognized in the month of
delivery - DateOffset(months=1). -/
def generate_material_cost (table : List (String × ℚ)) (line : String) (R : ℚ)
    (delivery : Date) : MaterialCost :=
  { month := monthKey (addMonthsClamped delivery (-1)),
    amount := round2 (R * lookupRatio table line),
    ratio := lookupRatio table line,
    payDate := addMonthsClamped delivery (-1) }

/-! ## Project records and repository state -/

/-- A stored project record (income table row). The three Option fields
embed the derived columns 交付季度 / 交付年份 / 季度, which are absent on a
freshly intaken row and written by generate_summary. -/
structure Project where
  name : String
  deliveryDate : Date
  contractAmount : ℚ
  closeRate : ℚ
  businessLine : String
  timeDecay : ℚ
  expectedRev : ℚ
  correctedRev : ℚ
  p1 : ℚ
  p2 : ℚ
  p3 : ℚ
  quarterCol : Option ℤ
  yearCol : Option ℤ
  quarterKey : Option (ℤ × ℤ)
deriving DecidableEq, Repr

/-- Material cost rows for the whole project table (one row per project). -/
def generate_material_cost_data (table : List (String × ℚ)) (ps : List Project) :
    List MaterialCost :=
  ps.map fun p => generate_material_cost table p.businessLine p.correctedRev p.deliveryDate

/-- Calendar quarter of a month (pandas dt.quarter). -/
def quarterOf (m : ℤ) : ℤ := (m + 2) / 3

/-- State effect of IncomeManager.generate_summary on the stored project
table: the source assigns the derived quarter/year/quarter-key columns
into self.data in place (lines 122-125) before aggregating, so the
stored collection gains those columns (base fields are preserved). -/
def generate_summary_step (t : List Project) : List Project :=
  t.map fun p =>
    { p with quarterCol := some (quarterOf p.deliveryDate.month),
             yearCol := some p.deliveryDate.year,
             quarterKey := some (p.deliveryDate.year, quarterOf p.deliveryDate.month) }

/-- State plus output of IncomeManager.generate_cash_flow_data: the method
only reads self.data row by row, so the stored table is returned as is. -/
def generate_cash_flow_step (t : List Project) :
    List Project × List (Bool × List CashFlowEvent) :=
  (t, t.map fun p => generate_cash_flow p.correctedRev p.p1 p.p2 p.p3 p.deliveryDate)

/-- State plus output of IncomeManager.generate_material_cost_data (reads
self.data only). -/
def generate_material_step (table : List (String × ℚ)) (t : List Project) :
    List Project × List MaterialCost :=
  (t, generate_material_cost_data table t)

/-! ## Labor cost amortization (LaborCostManager.generate_cost_data) -/

/-- While-loop of LaborCostManager.generate_cost_data. cur always has
day 1 (it starts at start_date.replace(day=1) and advances by one month).
month_end embeds current_date + DateOffset(months=1) - DateOffset(days=1),
the last day of the current month; days_in_month embeds
(current_date + DateOffset(months=1) - current_date).days; days_for_cost
embeds (actual_end - current_date).days + 1, a same-month day difference.
The fuel argument only bounds the iteration count; the loop guard
current_date <= end_date is re-checked every round, so any sufficiently
large fuel yields the same list. -/
def laborLoop (M : ℚ) (endD : Date) : ℕ → Date → List ((ℤ × ℤ) × ℚ)
  | 0, _ => []
  | fuel + 1, cur =>
    if dateLe cur endD then
      ((cur.year, cur.month),
        round2 (M * ((((dateMin (monthEndOf cur) endD).day - cur.day + 1 : ℤ) : ℚ) /
          ((daysInMonth cur.year cur.month : ℤ) : ℚ))))
        :: laborLoop M endD fuel (addMonthsClamped cur 1)
    else []

/-- Monthly amortization of one labor cost record: iterate calendar
months from the first day of the start month while current <= end. The
fuel (month span plus one) equals the exact number of loop iterations. -/
def generate_labor_cost (M : ℚ) (s e : Date) : List ((ℤ × ℤ) × ℚ) :=
  laborLoop M e (monthIndex e + 1 - monthIndex s).toNat
    { year := s.year, month := s.month, day := 1 }

/-- Day count of the calendar month denoted by an absolute month index. -/
def dimIdx (i : ℤ) : ℤ := daysInMonth (i / 12) (i % 12 + 1)

/-- Closed form of the labor amortization loop: one entry per calendar
month from the start month to the end month; every month except the end
month is charged the full rate (days are counted from the first of the
month, not from the start day), and the end month is charged
rate * end.day / daysInMonth. -/
def laborClosedForm (M : ℚ) (s e : Date) : List ((ℤ × ℤ) × ℚ) :=
  (List.range ((monthIndex e - monthIndex s).toNat + 1)).map fun k : ℕ =>
    (pairOfIndex (monthIndex s + (k : ℤ)),
      round2 (M * ((if monthIndex s + (k : ℤ) = monthIndex e then (e.day : ℚ)
          else ((dimIdx (monthIndex s + (k : ℤ)) : ℤ) : ℚ)) /
        ((dimIdx (monthIndex s + (k : ℤ)) : ℤ) : ℚ))))

/-! ## Administrative cost expansion (AdminCostManager.generate_cost_data) -/

/-- Payment frequency of an administrative cost record. -/
inductive Freq
  | monthly
  | quarterly
  | yearly
deriving DecidableEq, Repr

/-- While-loop shared by the monthly (step 1) and quarterly (step 3)
branches of AdminCostManager.generate_cost_data: emit the constant stored
amount at the current first-of-month date while current <= end, then
advance by the step. Fuel only bounds the iterations (guard re-checked). -/
def adminLoop (amt : ℚ) (step : ℤ) (endD : Date) : ℕ → Date → List ((ℤ × ℤ) × ℚ)
  | 0, _ => []
  | fuel + 1, cur =>
    if dateLe cur endD then
      ((cur.year, cur.month), amt) :: adminLoop amt step endD fuel (addMonthsClamped cur step)
    else []

/-- AdminCostManager.generate_cost_data for one record: monthly emits
round(M, 2) per month; quarterly emits round(3M, 2) every third month;
yearly emits a single round(12M, 2) event at the start month. -/
def generate_admin_cost (M : ℚ) (s e : Date) (f : Freq) : List ((ℤ × ℤ) × ℚ) :=
  match f with
  | Freq.monthly =>
      adminLoop (round2 M) 1 e (monthIndex e + 1 - monthIndex s).toNat
        { year := s.year, month := s.month, day := 1 }
  | Freq.quarterly =>
      adminLoop (round2 (M * 3)) 3 e (monthIndex e + 1 - monthIndex s).toNat
        { year := s.year, month := s.month, day := 1 }
  | Freq.yearly => [((s.year, s.month), round2 (M * 12))]

/-! ## Labor and admin records (state passing for the frame claims) -/

/-- A stored labor cost record. -/
structure LaborRecord where
  costType : String
  dept : String
  monthlyCost : ℚ
  startDate : Date
  endDate : Date
deriving DecidableEq, Repr

/-- A stored administrative cost record. -/
structure AdminRecord where
  costType : String
  item : String
  monthlyCost : ℚ
  startDate : Date
  endDate : Date
  freq : Freq
deriving DecidableEq, Repr

/-- State plus output of LaborCostManager.generate_cost_data: the source
copies self.data before normalizing dates, so the stored table is
unchanged. -/
def generate_labor_step (t : List LaborRecord) :
    List LaborRecord × List (List ((ℤ × ℤ) × ℚ)) :=
  (t, t.map fun r => generate_labor_cost r.monthlyCost r.startDate r.endDate)

/-- State plus output of AdminCostManager.generate_cost_data (reads rows
only). -/
def generate_admin_step (t : List AdminRecord) :
    List AdminRecord × List (List ((ℤ × ℤ) × ℚ)) :=
  (t, t.map fun r => generate_admin_cost r.monthlyCost r.startDate r.endDate r.freq)

/-! ## Budget aggregation (main, budget summary page, lines 1958-2048) -/

/-- Lookup of a summed monthly amount with the merge/fillna(0) semantics
of the source: a month key absent from the category series contributes 0. -/
def lookup0 : List ((ℤ × ℤ) × ℚ) → (ℤ × ℤ) → ℚ
  | [], _ => 0
  | (k, v) :: rest, m => if k = m then v else lookup0 rest m

/-- Chronological (non-strict) order on month keys; for canonical
zero-padded "YYYY-MM" strings this is exactly the sort order the source
obtains from pd.to_datetime-based sorting. -/
def monthKeyLe (a b : ℤ × ℤ) : Prop := a.1 < b.1 ∨ (a.1 = b.1 ∧ a.2 ≤ b.2)

/-- Strict chronological order on month keys. -/
def monthKeyLt (a b : ℤ × ℤ) : Prop := a.1 < b.1 ∨ (a.1 = b.1 ∧ a.2 < b.2)

instance : DecidableRel monthKeyLe := fun a b => by
  unfold monthKeyLe; exact inferInstance

instance : IsTotal (ℤ × ℤ) monthKeyLe :=
  ⟨fun a b => by unfold monthKeyLe; omega⟩

instance : IsTrans (ℤ × ℤ) monthKeyLe :=
  ⟨fun a b c hab hbc => by unfold monthKeyLe at hab hbc ⊢; omega⟩

/-- sorted(list(all_months)): chronological sort of the distinct keys. -/
def sortMonths (l : List (ℤ × ℤ)) : List (ℤ × ℤ) := List.insertionSort monthKeyLe l

/-- One row of the monthly budget ledger (budget_summary row). -/
structure LedgerRow where
  month : ℤ × ℤ
  revenue : ℚ
  material : ℚ
  labor : ℚ
  admin : ℚ
  occIncome : ℚ
  occExpense : ℚ
  totalRevenue : ℚ
  totalExpense : ℚ
  grossProfit : ℚ
  grossMargin : ℚ
deriving DecidableEq, Repr

/-- The budget aggregator: take the union of the month keys of the six
category series (each a month -> summed amount mapping), sort it
chronologically, and build one row per month with merge/fillna(0)
lookups and the derived totals of the source (lines 2032-2044). -/
def buildLedger (rev mat lab adm occI occE : List ((ℤ × ℤ) × ℚ)) : List LedgerRow :=
  (sortMonths ((rev.map Prod.fst ++ mat.map Prod.fst ++ lab.map Prod.fst ++
      adm.map Prod.fst ++ occI.map Prod.fst ++ occE.map Prod.fst).dedup)).map fun m =>
    { month := m,
      revenue := lookup0 rev m,
      material := lookup0 mat m,
      labor := lookup0 lab m,
      admin := lookup0 adm m,
      occIncome := lookup0 occI m,
      occExpense := lookup0 occE m,
      totalRevenue := lookup0 rev m + lookup0 occI m,
      totalExpense := lookup0 mat m + lookup0 lab m + lookup0 adm m + lookup0 occE m,
      grossProfit := (lookup0 rev m + lookup0 occI m) -
        (lookup0 mat m + lookup0 lab m + lookup0 adm m + lookup0 occE m),
      grossMargin := if 0 < lookup0 rev m + lookup0 occI m then
          ((lookup0 rev m + lookup0 occI m) -
            (lookup0 mat m + lookup0 lab m + lookup0 adm m + lookup0 occE m)) /
            (lookup0 rev m + lookup0 occI m) * 100
        else 0 }

/-! ## Runway projection (main, cash-flow page, lines 1884-1894) -/

/-- Cumulative balance series: balance[0] = B0 + netFlow[0] and
balance[i] = balance[i-1] + netFlow[i] (source lines 1886-1888). -/
def balances (b0 : ℚ) : List ℚ → List ℚ
  | [] => []
  | f :: fs => (b0 + f) :: balances (b0 + f) fs

/-- runway_months: scan the balance rows from the start, stop (without
counting) at the first balance <= 0 (source lines 1889-1892). -/
def runwayMonths (bal : List ℚ) : ℕ :=
  (bal.takeWhile fun b => decide (0 < b)).length

/-- The runway analysis block of main: it runs only under the guard
current_cash_balance > 0 (line 1839, else branch shows an info message and
produces nothing); the stored default of current_cash_balance is 0.0. -/
def runway_analysis (balance : ℚ) (flows : List ℚ) : Option (List ℚ × ℕ) :=
  if 0 < balance then
    some (balances balance flows, runwayMonths (balances balance flows))
  else none

/-! ## Ledger and runway computations as state-passing steps -/

/-- A stored occasional (one-off) income or expense entry. -/
structure OccasionalEntry where
  label : String
  amount : ℚ
  date : Date
  typeTag : String
deriving DecidableEq, Repr

/-- Sum of the amounts recorded under one month key. -/
def sumAmounts (l : List ((ℤ × ℤ) × ℚ)) (m : ℤ × ℤ) : ℚ :=
  ((l.filter fun kv => decide (kv.1 = m)).map Prod.snd).sum

/-- Collapse an event list to one summed row per distinct month key,
embedding the pandas groupby(month).sum() aggregations of the source. -/
def groupByMonth (l : List ((ℤ × ℤ) × ℚ)) : List ((ℤ × ℤ) × ℚ) :=
  ((l.map Prod.fst).dedup).map fun m => (m, sumAmounts l m)

/-- Corrected revenue summed by delivery month (budget page, lines
1914-1917). -/
def incomeMonthlySeries (t : List Project) : List ((ℤ × ℤ) × ℚ) :=
  groupByMonth (t.map fun p => (monthKey p.deliveryDate, p.correctedRev))

/-- Occasional entry amounts summed by entry month. -/
def occasionalSeries (t : List OccasionalEntry) : List ((ℤ × ℤ) × ℚ) :=
  groupByMonth (t.map fun o => (monthKey o.date, o.amount))

/-- Material costs summed by payment month. -/
def materialMonthlySeries (table : List (String × ℚ)) (t : List Project) :
    List ((ℤ × ℤ) × ℚ) :=
  groupByMonth ((generate_material_cost_data table t).map fun c => (c.month, c.amount))

/-- Amortized labor costs summed by expense month. -/
def laborMonthlySeries (t : List LaborRecord) : List ((ℤ × ℤ) × ℚ) :=
  groupByMonth ((t.map fun r => generate_labor_cost r.monthlyCost r.startDate r.endDate).flatten)

/-- Expanded administrative costs summed by expense month. -/
def adminMonthlySeries (t : List AdminRecord) : List ((ℤ × ℤ) × ℚ) :=
  groupByMonth
    ((t.map fun r => generate_admin_cost r.monthlyCost r.startDate r.endDate r.freq).flatten)

/-- Cash-flow event amounts summed by payment month (the income series of
the runway block, line 1840). -/
def cashFlowMonthlySeries (projs : List Project) : List ((ℤ × ℤ) × ℚ) :=
  groupByMonth
    (((projs.map fun p =>
        (generate_cash_flow p.correctedRev p.p1 p.p2 p.p3 p.deliveryDate).2).flatten).map
      fun ev => (ev.month, ev.amount))

/-- Net monthly cash-flow series of the runway block (lines 1845-1884):
cash-flow income plus occasional income minus material, labor, admin and
occasional expense, over the chronologically sorted union of the month
keys of the six series. -/
def netFlowSeries (table : List (String × ℚ)) (projs : List Project)
    (labs : List LaborRecord) (adms : List AdminRecord)
    (occI occE : List OccasionalEntry) : List ℚ :=
  (sortMonths (((cashFlowMonthlySeries projs).map Prod.fst ++
      (materialMonthlySeries table projs).map Prod.fst ++
      (laborMonthlySeries labs).map Prod.fst ++
      (adminMonthlySeries adms).map Prod.fst ++
      (occasionalSeries occI).map Prod.fst ++
      (occasionalSeries occE).map Prod.fst).dedup)).map fun m =>
    lookup0 (cashFlowMonthlySeries projs) m + lookup0 (occasionalSeries occI) m -
      (lookup0 (materialMonthlySeries table projs) m + lookup0 (laborMonthlySeries labs) m +
        lookup0 (adminMonthlySeries adms) m + lookup0 (occasionalSeries occE) m)

/-- State plus output of the budget-summary (ledger) page computation
(lines 1912-2052): the source reads copies of the stored collections and
derived frames only, so every collection is returned as is. -/
def generate_ledger_step (table : List (String × ℚ)) (projs : List Project)
    (labs : List LaborRecord) (adms : List AdminRecord)
    (occI occE : List OccasionalEntry) :
    (List Project × List LaborRecord × List AdminRecord × List OccasionalEntry ×
      List OccasionalEntry) × List LedgerRow :=
  ((projs, labs, adms, occI, occE),
    buildLedger (incomeMonthlySeries projs) (materialMonthlySeries table projs)
      (laborMonthlySeries labs) (adminMonthlySeries adms) (occasionalSeries occI)
      (occasionalSeries occE))

/-- State plus output of the runway block (lines 1839-1905): it builds
derived frames from the stored collections and the configured balance
(gated by runway_analysis), mutating nothing. -/
def generate_runway_step (balance : ℚ) (table : List (String × ℚ)) (projs : List Project)
    (labs : List LaborRecord) (adms : List AdminRecord)
    (occI occE : List OccasionalEntry) :
    (List Project × List LaborRecord × List AdminRecord × List OccasionalEntry ×
      List OccasionalEntry) × Option (List ℚ × ℕ) :=
  ((projs, labs, adms, occI, occE),
    runway_analysis balance (netFlowSeries table projs labs adms occI occE))

/-- Concrete project record used as input of witnesses and counterexamples. -/
def sampleProject : Project :=
  { name := "p", deliveryDate := { year := 2025, month := 5, day := 20 },
    contractAmount := 100, closeRate := 1/2, businessLine := "光谱设备/服务",
    timeDecay := 1, expectedRev := 50, correctedRev := 50,
    p1 := 50, p2 := 40, p3 := 10,
    quarterCol := none, yearCol := none, quarterKey := none }

/-- Concrete ledger row used by the aggregation witness. -/
def c5row : LedgerRow :=
  { month := (2025, 1), revenue := 0, material := 3, labor := 0, admin := 0,
    occIncome := 0, occExpense := 0, totalRevenue := 0, totalExpense := 3,
    grossProfit := -3, grossMargin := 0 }

/-! ## Calendar and rounding lemmas -/

theorem daysInMonth_pos (y m : ℤ) : 0 < daysInMonth y m := by
  unfold daysInMonth
  split
  · split <;> norm_num
  · split <;> norm_num

theorem monthIndex_addMonthsClamped (d : Date) (n : ℤ) :
    monthIndex (addMonthsClamped d n) = monthIndex d + n := by
  show ((monthIndex d + n) / 12) * 12 + ((monthIndex d + n) % 12 + 1 - 1) = monthIndex d + n
  omega

theorem addMonthsClamped_day_one (d : Date) (h : d.day = 1) (n : ℤ) :
    (addMonthsClamped d n).day = 1 := by
  show min d.day (daysInMonth ((monthIndex d + n) / 12) ((monthIndex d + n) % 12 + 1)) = 1
  rw [h]
  exact min_eq_left (by
    have := daysInMonth_pos ((monthIndex d + n) / 12) ((monthIndex d + n) % 12 + 1)
    omega)

theorem addMonthsClamped_month_bounds (d : Date) (n : ℤ) :
    1 ≤ (addMonthsClamped d n).month ∧ (addMonthsClamped d n).month ≤ 12 := by
  show 1 ≤ (monthIndex d + n) % 12 + 1 ∧ (monthIndex d + n) % 12 + 1 ≤ 12
  omega

theorem pairOfIndex_eq (d : Date) (h1 : 1 ≤ d.month) (h2 : d.month ≤ 12) :
    pairOfIndex (monthIndex d) = (d.year, d.month) := by
  unfold pairOfIndex monthIndex
  rw [Prod.mk.injEq]
  constructor
  · omega
  · omega

theorem dimIdx_eq (d : Date) (h1 : 1 ≤ d.month) (h2 : d.month ≤ 12) :
    dimIdx (monthIndex d) = daysInMonth d.year d.month := by
  unfold dimIdx monthIndex
  have hy : (d.year * 12 + (d.month - 1)) / 12 = d.year := by omega
  have hm : (d.year * 12 + (d.month - 1)) % 12 + 1 = d.month := by omega
  rw [hy, hm]

theorem monthIndex_inj (a b : Date) (ha1 : 1 ≤ a.month) (ha2 : a.month ≤ 12)
    (hb1 : 1 ≤ b.month) (hb2 : b.month ≤ 12) (h : monthIndex a = monthIndex b) :
    a.year = b.year ∧ a.month = b.month := by
  unfold monthIndex at h
  constructor
  · omega
  · omega

theorem dateLe_monthIndex_le {a b : Date} (h : dateLe a b) :
    monthIndex a ≤ monthIndex b := by
  unfold dateLe at h; omega

theorem addYears_one_eq_addMonths_twelve (d : Date) (h1 : 1 ≤ d.month) (h2 : d.month ≤ 12) :
    addYearsClamped d 1 = addMonthsClamped d 12 := by
  unfold addYearsClamped addMonthsClamped monthIndex
  have hy : (d.year * 12 + (d.month - 1) + 12) / 12 = d.year + 1 := by omega
  have hm : (d.year * 12 + (d.month - 1) + 12) % 12 + 1 = d.month := by omega
  rw [Date.mk.injEq]
  refine ⟨hy.symm, hm.symm, ?_⟩
  rw [hy, hm]

theorem round2_abs_le (q : ℚ) : |round2 q - q| ≤ 1/200 := by
  have h : |100 * q - (round (100 * q) : ℤ)| ≤ 1/2 := abs_sub_round (100 * q)
  have e : round2 q - q = -(100 * q - ((round (100 * q) : ℤ) : ℚ)) / 100 := by
    unfold round2; ring
  rw [e, abs_div, abs_neg, abs_of_pos (show (0:ℚ) < 100 by norm_num)]
  linarith

theorem round2_eq_self_of_cent (q : ℚ) (h : ∃ z : ℤ, q = z / 100) : round2 q = q := by
  obtain ⟨z, rfl⟩ := h
  unfold round2
  rw [show (100 : ℚ) * ((z : ℚ) / 100) = (z : ℚ) by ring, round_intCast]

theorem keyIndex_addMonthsClamped (d : Date) (n : ℤ) :
    keyIndex (monthKey (addMonthsClamped d n)) = monthIndex d + n := by
  show ((monthIndex d + n) / 12) * 12 + ((monthIndex d + n) % 12 + 1 - 1) = monthIndex d + n
  omega

/-! ## C2: revenue decay model -/

/-- C2: the revenue model computes monthDiff as the calendar year/month
difference from the base date to the delivery date clamped below at 0,
expectedRevenue as C * r * decayFactor, and for lambda > 0 the decay
factor exp(-lambda t) lies in (0, 1] for every t >= 0, equals 1 at t = 0,
and is strictly decreasing in t. -/
theorem C2_revenue_decay (lam : ℝ) (hlam : 0 < lam) :
    (∀ b d : Date, month_diff b d = max 0 ((d.year - b.year) * 12 + (d.month - b.month))) ∧
    (∀ b d : Date, 0 ≤ month_diff b d) ∧
    (∀ C r : ℝ, ∀ b d : Date,
      expectedRevenue C r lam b d = C * r * decayFactor lam (month_diff b d)) ∧
    (∀ t : ℤ, 0 ≤ t → 0 < decayFactor lam t ∧ decayFactor lam t ≤ 1) ∧
    decayFactor lam 0 = 1 ∧
    (∀ s t : ℤ, 0 ≤ s → s < t → decayFactor lam t < decayFactor lam s) := by
  refine ⟨fun b d => rfl, fun b d => le_max_left _ _, fun C r b d => rfl, ?_, ?_, ?_⟩
  · intro t ht
    refine ⟨Real.exp_pos _, ?_⟩
    have htr : (0:ℝ) ≤ (t : ℝ) := by exact_mod_cast ht
    have h1 : -(lam * (t : ℝ)) ≤ 0 := by nlinarith
    calc Real.exp (-(lam * (t : ℝ))) ≤ Real.exp 0 := Real.exp_le_exp.mpr h1
      _ = 1 := Real.exp_zero
  · unfold decayFactor
    norm_num
  · intro s t hs hst
    apply Real.exp_lt_exp.mpr
    have hstr : (s : ℝ) < (t : ℝ) := by exact_mod_cast hst
    nlinarith

/-- Witness for C2 at the literal decay coefficient 0.0315 of the source. -/
theorem C2_revenue_decay_witness :
    (0:ℝ) < 63/2000 ∧ decayFactor (63/2000) 0 = 1 :=
  ⟨by norm_num, (C2_revenue_decay (63/2000) (by norm_num)).2.2.2.2.1⟩

/-! ## Runway lemmas and C6, C10 -/

theorem balances_length (b0 : ℚ) (fs : List ℚ) : (balances b0 fs).length = fs.length := by
  induction fs generalizing b0 with
  | nil => rfl
  | cons f fs ih => simp [balances, ih]

theorem balances_getD_succ (b0 : ℚ) (fs : List ℚ) (i : ℕ) (h : i + 1 < fs.length) :
    (balances b0 fs).getD (i + 1) 0 = (balances b0 fs).getD i 0 + fs.getD (i + 1) 0 := by
  induction fs generalizing b0 i with
  | nil => simp at h
  | cons f fs ih =>
    cases i with
    | zero =>
      cases fs with
      | nil => simp at h
      | cons g gs => simp [balances]
    | succ j =>
      have hj : j + 1 < fs.length := by simpa using h
      simpa [balances] using ih (b0 + f) j hj

theorem runwayMonths_cons (b : ℚ) (bs : List ℚ) :
    runwayMonths (b :: bs) = if 0 < b then runwayMonths bs + 1 else 0 := by
  unfold runwayMonths
  by_cases hb : 0 < b <;> simp [List.takeWhile_cons, hb]

theorem runwayMonths_le_length (bal : List ℚ) : runwayMonths bal ≤ bal.length := by
  induction bal with
  | nil => rfl
  | cons b bs ih =>
    rw [runwayMonths_cons]
    by_cases hb : 0 < b
    · simp only [if_pos hb, List.length_cons]; omega
    · simp only [if_neg hb, List.length_cons]; omega

theorem runwayMonths_pos_getD (bal : List ℚ) (i : ℕ) (h : i < runwayMonths bal) :
    0 < bal.getD i 0 := by
  induction bal generalizing i with
  | nil => simp [runwayMonths] at h
  | cons b bs ih =>
    rw [runwayMonths_cons] at h
    by_cases hb : 0 < b
    · rw [if_pos hb] at h
      cases i with
      | zero => simpa using hb
      | succ j => simpa using ih j (by omega)
    · rw [if_neg hb] at h
      omega

theorem runwayMonths_stop_getD (bal : List ℚ) (h : runwayMonths bal < bal.length) :
    bal.getD (runwayMonths bal) 0 ≤ 0 := by
  induction bal with
  | nil => simp at h
  | cons b bs ih =>
    rw [runwayMonths_cons] at h ⊢
    by_cases hb : 0 < b
    · rw [if_pos hb] at h ⊢
      simpa using ih (by simpa using h)
    · rw [if_neg hb] at h ⊢
      simpa using le_of_not_lt hb

theorem runwayMonths_full (bal : List ℚ) (h : ∀ i, i < bal.length → 0 < bal.getD i 0) :
    runwayMonths bal = bal.length := by
  induction bal with
  | nil => rfl
  | cons b bs ih =>
    rw [runwayMonths_cons]
    have hb : 0 < b := by simpa using h 0 (by simp)
    rw [if_pos hb]
    have hrest : runwayMonths bs = bs.length :=
      ih fun i hi => by simpa using h (i + 1) (by simpa using hi)
    simp [hrest]

/-- C6: the runway projector computes balance 0 as B0 + netFlow 0 and
balance i as balance (i-1) + netFlow i, and runwayMonths counts the
consecutive strictly positive balances from the start, stopping at and
not counting the first balance <= 0, equalling the series length when no
balance ever drops to <= 0; for starting balance 10 and flows
[-5, -5, -5] the balances are [5, 0, -5] and the runway is 1 month. -/
theorem C6_runway_projection (b0 : ℚ) (flows : List ℚ) :
    (balances b0 flows).length = flows.length ∧
    (flows ≠ [] → (balances b0 flows).getD 0 0 = b0 + flows.getD 0 0) ∧
    (∀ i : ℕ, i + 1 < flows.length →
      (balances b0 flows).getD (i + 1) 0 =
        (balances b0 flows).getD i 0 + flows.getD (i + 1) 0) ∧
    runwayMonths (balances b0 flows) ≤ flows.length ∧
    (∀ i : ℕ, i < runwayMonths (balances b0 flows) → 0 < (balances b0 flows).getD i 0) ∧
    (runwayMonths (balances b0 flows) < flows.length →
      (balances b0 flows).getD (runwayMonths (balances b0 flows)) 0 ≤ 0) ∧
    ((∀ i : ℕ, i < flows.length → 0 < (balances b0 flows).getD i 0) →
      runwayMonths (balances b0 flows) = flows.length) ∧
    balances 10 [-5, -5, -5] = [5, 0, -5] ∧
    runwayMonths (balances 10 [-5, -5, -5]) = 1 := by
  have hlen := balances_length b0 flows
  refine ⟨hlen, ?_, fun i h => balances_getD_succ b0 flows i h, ?_, ?_, ?_, ?_,
    by norm_num [balances], by norm_num [balances, runwayMonths, List.takeWhile_cons]⟩
  · intro hne
    cases flows with
    | nil => exact absurd rfl hne
    | cons f fs => simp [balances]
  · calc runwayMonths (balances b0 flows) ≤ (balances b0 flows).length :=
        runwayMonths_le_length _
      _ = flows.length := hlen
  · exact fun i h => runwayMonths_pos_getD _ i h
  · intro h
    exact runwayMonths_stop_getD _ (by omega)
  · intro h
    rw [runwayMonths_full _ (fun i hi => h i (by omega)), hlen]

/-- Witness for C6: the stop condition evaluated on the spec example. -/
theorem C6_runway_witness :
    (balances 10 [-5, -5, -5]).getD (runwayMonths (balances 10 [-5, -5, -5])) 0 ≤ 0 :=
  (C6_runway_projection 10 [-5, -5, -5]).2.2.2.2.2.1
    (by norm_num [balances, runwayMonths, List.takeWhile_cons])

/-- C10: the runway analysis runs only when the configured starting cash
balance is strictly positive; at the default balance 0 it produces no
output at all. -/
theorem C10_runway_gate (balance : ℚ) (flows : List ℚ) :
    ((runway_analysis balance flows).isSome ↔ 0 < balance) ∧
    runway_analysis 0 flows = none ∧
    (0 < balance → runway_analysis balance flows =
      some (balances balance flows, runwayMonths (balances balance flows))) := by
  refine ⟨?_, ?_, ?_⟩
  · unfold runway_analysis
    by_cases h : 0 < balance <;> simp [h]
  · unfold runway_analysis
    norm_num
  · intro h
    unfold runway_analysis
    rw [if_pos h]

/-- Witness for C10 at a positive balance. -/
theorem C10_runway_gate_witness :
    runway_analysis 1 [] = some (balances 1 [], runwayMonths (balances 1 [])) :=
  (C10_runway_gate 1 []).2.2 (by norm_num)

/-! ## C3, C8: cash-flow generation -/

/-- C3: for every project the generator emits exactly three events, dated
at delivery, one calendar month after delivery and twelve calendar months
after delivery (day-of-month preserved with clamping to the last valid
day), with stored amounts round2 of R*p1/100, R*p2/100, R*p3/100; the
three pre-rounding amounts sum exactly to R*(p1+p2+p3)/100, the stored
(presentation-rounded) amounts sum to it within rounding, and when the
ratios sum to exactly 100 the stored amounts sum to R within rounding. -/
theorem C3_cash_flow_generation (R p1 p2 p3 : ℚ) (d : Date)
    (h1 : 1 ≤ d.month) (h2 : d.month ≤ 12) :
    ((generate_cash_flow R p1 p2 p3 d).2).length = 3 ∧
    ((generate_cash_flow R p1 p2 p3 d).2).map CashFlowEvent.payDate =
      [d, addMonthsClamped d 1, addMonthsClamped d 12] ∧
    ((generate_cash_flow R p1 p2 p3 d).2).map CashFlowEvent.amount =
      [round2 (R * (p1 / 100)), round2 (R * (p2 / 100)), round2 (R * (p3 / 100))] ∧
    R * (p1 / 100) + R * (p2 / 100) + R * (p3 / 100) = R * (p1 + p2 + p3) / 100 ∧
    |(((generate_cash_flow R p1 p2 p3 d).2).map CashFlowEvent.amount).sum -
        R * (p1 + p2 + p3) / 100| ≤ 3/200 ∧
    (p1 + p2 + p3 = 100 →
      |(((generate_cash_flow R p1 p2 p3 d).2).map CashFlowEvent.amount).sum - R| ≤ 3/200) := by
  have hsum : (((generate_cash_flow R p1 p2 p3 d).2).map CashFlowEvent.amount).sum =
      round2 (R * (p1 / 100)) + round2 (R * (p2 / 100)) + round2 (R * (p3 / 100)) := by
    show round2 (R * (p1 / 100)) + (round2 (R * (p2 / 100)) +
      (round2 (R * (p3 / 100)) + 0)) = _
    ring
  have b1 := round2_abs_le (R * (p1 / 100))
  have b2 := round2_abs_le (R * (p2 / 100))
  have b3 := round2_abs_le (R * (p3 / 100))
  rw [abs_le] at b1 b2 b3
  refine ⟨rfl, ?_, rfl, by ring, ?_, ?_⟩
  · show [d, addMonthsClamped d 1, addYearsClamped d 1] =
      [d, addMonthsClamped d 1, addMonthsClamped d 12]
    rw [addYears_one_eq_addMonths_twelve d h1 h2]
  · rw [hsum, abs_le]
    constructor
    · linarith [b1.1, b2.1, b3.1]
    · linarith [b1.2, b2.2, b3.2]
  · intro h100
    have hr : R * (p1 / 100) + R * (p2 / 100) + R * (p3 / 100) = R := by
      rw [show R * (p1 / 100) + R * (p2 / 100) + R * (p3 / 100) =
        R * ((p1 + p2 + p3) / 100) from by ring, h100]
      norm_num
    rw [hsum, abs_le]
    constructor
    · linarith [b1.1, b2.1, b3.1]
    · linarith [b1.2, b2.2, b3.2]

/-- Witness for C3 at a concrete project. -/
theorem C3_cash_flow_witness :
    (1 ≤ (Date.mk 2025 5 20).month ∧ (Date.mk 2025 5 20).month ≤ 12) ∧
    ((generate_cash_flow 100 50 40 10 (Date.mk 2025 5 20)).2).map CashFlowEvent.payDate =
      [Date.mk 2025 5 20, addMonthsClamped (Date.mk 2025 5 20) 1,
        addMonthsClamped (Date.mk 2025 5 20) 12] :=
  ⟨⟨by norm_num, by norm_num⟩,
    (C3_cash_flow_generation 100 50 40 10 (Date.mk 2025 5 20)
      (by norm_num) (by norm_num)).2.1⟩

/-- C8: the generator raises the data-quality warning iff the ratio sum
deviates from 100 by more than the tolerance 0.1, and in every case it
still emits the three payment events computed from the given ratios. -/
theorem C8_payment_ratio_warning (R p1 p2 p3 : ℚ) (d : Date) :
    ((generate_cash_flow R p1 p2 p3 d).1 = true ↔ 1/10 < |p1 + p2 + p3 - 100|) ∧
    ((generate_cash_flow R p1 p2 p3 d).2).length = 3 ∧
    ((generate_cash_flow R p1 p2 p3 d).2).map CashFlowEvent.amount =
      [round2 (R * (p1 / 100)), round2 (R * (p2 / 100)), round2 (R * (p3 / 100))] := by
  refine ⟨?_, rfl, rfl⟩
  show decide ((1:ℚ)/1000 < |p1 / 100 + p2 / 100 + p3 / 100 - 1|) = true ↔ _
  rw [decide_eq_true_eq]
  rw [show p1 / 100 + p2 / 100 + p3 / 100 - 1 = (p1 + p2 + p3 - 100) / 100 from by ring,
    abs_div, abs_of_pos (show (0:ℚ) < 100 from by norm_num)]
  constructor <;> intro h <;> linarith

/-! ## C7: material cost allocation -/

/-- C7: for each project the allocator produces exactly one amount, equal
(up to presentation rounding) to corrected revenue times the ratio looked
up for the business line (with the default fallback when absent), keyed
to the calendar month exactly one month before the delivery date. -/
theorem C7_material_allocation (table : List (String × ℚ)) (ps : List Project) (p : Project) :
    (generate_material_cost_data table ps).length = ps.length ∧
    (generate_material_cost table p.businessLine p.correctedRev p.deliveryDate).amount =
      round2 (p.correctedRev * lookupRatio table p.businessLine) ∧
    |(generate_material_cost table p.businessLine p.correctedRev p.deliveryDate).amount -
        p.correctedRev * lookupRatio table p.businessLine| ≤ 1/200 ∧
    keyIndex (generate_material_cost table p.businessLine p.correctedRev p.deliveryDate).month =
      monthIndex p.deliveryDate - 1 ∧
    (alookup table p.businessLine = none →
      lookupRatio table p.businessLine =
        (alookup defaultMaterialRatios p.businessLine).getD (30/100)) := by
  refine ⟨by simp [generate_material_cost_data], rfl, round2_abs_le _, ?_, ?_⟩
  · calc keyIndex (generate_material_cost table p.businessLine p.correctedRev
        p.deliveryDate).month
        = monthIndex p.deliveryDate + (-1) := keyIndex_addMonthsClamped p.deliveryDate (-1)
      _ = monthIndex p.deliveryDate - 1 := by ring
  · intro h
    unfold lookupRatio
    rw [h]

/-- Witness for C7: the fallback clause at an empty configured table. -/
theorem C7_material_witness :
    lookupRatio [] sampleProject.businessLine =
      (alookup defaultMaterialRatios sampleProject.businessLine).getD (30/100) :=
  (C7_material_allocation [] [] sampleProject).2.2.2.2 rfl

/-! ## C9: frame effects of the derived computations -/

/-- Counterexample for C9: the income summary computation does not leave
the stored project table unchanged; on a freshly intaken project it
writes the derived quarter/year columns into the stored record. -/
theorem C9_counterexample : generate_summary_step [sampleProject] ≠ [sampleProject] := by
  simp [generate_summary_step, sampleProject]

/-- C9 (amended): the cash-flow, material, labor, admin, monthly-ledger
and runway computations all leave the stored input collections (projects,
labor records, admin records, occasional entries) unchanged; the income
summary computation preserves the length of the project table and every
base field of every record, but writes the derived quarter, year and
quarter-key columns (computed from the delivery date) into the stored
table. -/
theorem C9_frame_effects (projs : List Project) (labs : List LaborRecord)
    (adms : List AdminRecord) (table : List (String × ℚ))
    (occI occE : List OccasionalEntry) (balance : ℚ) :
    (generate_cash_flow_step projs).1 = projs ∧
    (generate_material_step table projs).1 = projs ∧
    (generate_labor_step labs).1 = labs ∧
    (generate_admin_step adms).1 = adms ∧
    (generate_ledger_step table projs labs adms occI occE).1 =
      (projs, labs, adms, occI, occE) ∧
    (generate_runway_step balance table projs labs adms occI occE).1 =
      (projs, labs, adms, occI, occE) ∧
    (generate_summary_step projs).length = projs.length ∧
    (∀ i : ℕ, ∀ hi : i < projs.length,
      (generate_summary_step projs).get ⟨i, by simpa [generate_summary_step] using hi⟩ =
        { projs.get ⟨i, hi⟩ with
          quarterCol := some (quarterOf (projs.get ⟨i, hi⟩).deliveryDate.month),
          yearCol := some (projs.get ⟨i, hi⟩).deliveryDate.year,
          quarterKey := some ((projs.get ⟨i, hi⟩).deliveryDate.year,
            quarterOf (projs.get ⟨i, hi⟩).deliveryDate.month) }) := by
  refine ⟨rfl, rfl, rfl, rfl, rfl, rfl, by simp [generate_summary_step], ?_⟩
  intro i hi
  simp [generate_summary_step, List.get_eq_getElem, List.getElem_map]

/-- Witness for C9 on the sample project. -/
theorem C9_frame_witness :
    (generate_summary_step [sampleProject]).get ⟨0, by simp [generate_summary_step]⟩ =
      { sampleProject with
        quarterCol := some 2,
        yearCol := some 2025,
        quarterKey := some (2025, 2) } := by
  have h := (C9_frame_effects [sampleProject] [] [] [] [] [] 0).2.2.2.2.2.2.2 0 (by norm_num)
  refine h.trans ?_
  norm_num [sampleProject, quarterOf]

/-! ## Labor amortization loop: closed form -/

theorem laborLoop_zero (M : ℚ) (endD : Date) (cur : Date) :
    laborLoop M endD 0 cur = [] := rfl

theorem laborLoop_succ (M : ℚ) (endD : Date) (fuel : ℕ) (cur : Date) :
    laborLoop M endD (fuel + 1) cur =
      if dateLe cur endD then
        ((cur.year, cur.month),
          round2 (M * ((((dateMin (monthEndOf cur) endD).day - cur.day + 1 : ℤ) : ℚ) /
            ((daysInMonth cur.year cur.month : ℤ) : ℚ))))
          :: laborLoop M endD fuel (addMonthsClamped cur 1)
      else [] := rfl

theorem laborLoop_closed (M : ℚ) (e : Date) (he : validDate e) (n : ℕ) :
    ∀ cur : Date, cur.day = 1 → 1 ≤ cur.month → cur.month ≤ 12 →
      monthIndex cur + n = monthIndex e →
      laborLoop M e (n + 1) cur =
        (List.range (n + 1)).map (fun k : ℕ =>
          (pairOfIndex (monthIndex cur + (k : ℤ)),
            round2 (M * ((if monthIndex cur + (k : ℤ) = monthIndex e then (e.day : ℚ)
                else ((dimIdx (monthIndex cur + (k : ℤ)) : ℤ) : ℚ)) /
              ((dimIdx (monthIndex cur + (k : ℤ)) : ℤ) : ℚ))))) := by
  unfold validDate at he
  obtain ⟨hm1, hm2, hd1, hd2⟩ := he
  induction n with
  | zero =>
    intro cur hday h1 h2 hidx
    simp only [Nat.cast_zero, add_zero] at hidx
    obtain ⟨hyy, hmm⟩ := monthIndex_inj cur e h1 h2 hm1 hm2 hidx
    have hg : dateLe cur e := by
      unfold dateLe; right; exact ⟨hidx, by omega⟩
    have hkey : (dateMin (monthEndOf cur) e).day = e.day := by
      unfold dateMin
      by_cases hc : dateLe (monthEndOf cur) e
      · rw [if_pos hc]
        unfold dateLe monthIndex monthEndOf at hc
        dsimp only at hc
        have hde : daysInMonth cur.year cur.month = daysInMonth e.year e.month := by
          rw [hyy, hmm]
        unfold monthIndex at hidx
        show (monthEndOf cur).day = e.day
        unfold monthEndOf
        dsimp only
        omega
      · rw [if_neg hc]
    rw [laborLoop_succ]
    rw [if_pos hg, hkey, hday, laborLoop_zero]
    rw [show List.range (0 + 1) = [0] from rfl]
    simp only [List.map_cons, List.map_nil, Nat.cast_zero, add_zero]
    rw [if_pos hidx]
    rw [pairOfIndex_eq cur h1 h2, dimIdx_eq cur h1 h2]
    rw [show e.day - 1 + 1 = e.day from by omega]
  | succ n ih =>
    intro cur hday h1 h2 hidx
    have hidx2 : monthIndex cur + (n : ℤ) + 1 = monthIndex e := by push_cast at hidx; omega
    have hlt : monthIndex cur < monthIndex e := by omega
    have hg : dateLe cur e := by unfold dateLe; left; exact hlt
    have hcE : dateLe (monthEndOf cur) e := by
      unfold dateLe monthIndex monthEndOf
      dsimp only
      unfold monthIndex at hlt
      omega
    have hmi2 : monthIndex (addMonthsClamped cur 1) = monthIndex cur + 1 :=
      monthIndex_addMonthsClamped cur 1
    have htail := ih (addMonthsClamped cur 1) (addMonthsClamped_day_one cur hday 1)
      (addMonthsClamped_month_bounds cur 1).1 (addMonthsClamped_month_bounds cur 1).2
      (by omega)
    rw [laborLoop_succ]
    rw [if_pos hg]
    rw [show dateMin (monthEndOf cur) e = monthEndOf cur from by
      unfold dateMin; rw [if_pos hcE]]
    rw [htail]
    rw [List.range_succ_eq_map (n + 1), List.map_cons, List.map_map]
    congr 1
    · unfold monthEndOf
      dsimp only
      rw [hday, Nat.cast_zero, add_zero, if_neg (by omega), pairOfIndex_eq cur h1 h2,
        dimIdx_eq cur h1 h2]
      rw [show daysInMonth cur.year cur.month - 1 + 1 = daysInMonth cur.year cur.month from by
        omega]
    · apply List.map_congr_left
      intro k _
      have harg : monthIndex (addMonthsClamped cur 1) + (k : ℤ) =
          monthIndex cur + ((k : ℕ) + 1 : ℕ) := by
        push_cast
        omega
      simp only [Function.comp]
      rw [harg]

theorem generate_labor_cost_closed (M : ℚ) (s e : Date) (hs : validDate s)
    (he : validDate e) (hle : dateLe s e) :
    generate_labor_cost M s e = laborClosedForm M s e := by
  have hmi : monthIndex s ≤ monthIndex e := dateLe_monthIndex_le hle
  unfold validDate at hs
  obtain ⟨hs1, hs2, _, _⟩ := hs
  unfold generate_labor_cost laborClosedForm
  rw [show (monthIndex e + 1 - monthIndex s).toNat =
    (monthIndex e - monthIndex s).toNat + 1 from by omega]
  exact laborLoop_closed M e he ((monthIndex e - monthIndex s).toNat)
    { year := s.year, month := s.month, day := 1 } rfl hs1 hs2 (by
      show monthIndex s + ((monthIndex e - monthIndex s).toNat : ℤ) = monthIndex e
      omega)

theorem labor_example_eval :
    generate_labor_cost 30 (Date.mk 2025 1 15) (Date.mk 2025 3 10) =
      [((2025, 1), 30), ((2025, 2), 30), ((2025, 3), round2 (30 * (10 / 31)))] := by
  unfold generate_labor_cost
  rw [show (monthIndex (Date.mk 2025 3 10) + 1 - monthIndex (Date.mk 2025 1 15)).toNat = 3
    from by decide]
  norm_num [laborLoop_succ, laborLoop_zero, dateLe, dateMin, monthIndex, monthEndOf,
    addMonthsClamped, daysInMonth, isLeapYear, round2, round_eq]

/-- C1 (amended): the amortizer iterates calendar months from the first
day of the start month; every month strictly before the end month --
including the first month, whose days are counted from the first of the
month rather than from the start day -- is allocated the full monthly
rate, and the end month is allocated rate * end.day / daysInMonth, all
rounded to two decimals when stored; for rate 30 over 2025-01-15 to
2025-03-10 the allocations are January 30.00 (not 30*17/31), February
30.00 and March 30*10/31 (about 9.68). -/
theorem C1_labor_amortization (M : ℚ) (s e : Date) (hs : validDate s) (he : validDate e)
    (hle : dateLe s e) :
    generate_labor_cost M s e = laborClosedForm M s e ∧
    generate_labor_cost 30 (Date.mk 2025 1 15) (Date.mk 2025 3 10) =
      [((2025, 1), 30), ((2025, 2), 30), ((2025, 3), round2 (30 * (10 / 31)))] :=
  ⟨generate_labor_cost_closed M s e hs he hle, labor_example_eval⟩

/-- Counterexample for C1: on the spec example (rate 30 over 2025-01-15
to 2025-03-10) the code allocates the full 30 to January, not the
day-weighted 30*17/31 (about 16.45) the claim states. -/
theorem C1_labor_counterexample :
    (generate_labor_cost 30 (Date.mk 2025 1 15) (Date.mk 2025 3 10)).head? =
      some ((2025, 1), 30) ∧
    (generate_labor_cost 30 (Date.mk 2025 1 15) (Date.mk 2025 3 10)).head? ≠
      some ((2025, 1), (30 : ℚ) * 17 / 31) ∧
    (generate_labor_cost 30 (Date.mk 2025 1 15) (Date.mk 2025 3 10)).head? ≠
      some ((2025, 1), round2 ((30 : ℚ) * 17 / 31)) := by
  rw [labor_example_eval]
  refine ⟨rfl, ?_, ?_⟩
  · intro h
    simp only [List.head?_cons, Option.some.injEq, Prod.mk.injEq] at h
    norm_num at h
  · intro h
    simp only [List.head?_cons, Option.some.injEq, Prod.mk.injEq] at h
    norm_num [round2, round_eq] at h

/-- Witness for C1 on the spec example interval. -/
theorem C1_labor_witness :
    generate_labor_cost 30 (Date.mk 2025 1 15) (Date.mk 2025 3 10) =
      laborClosedForm 30 (Date.mk 2025 1 15) (Date.mk 2025 3 10) :=
  (C1_labor_amortization 30 (Date.mk 2025 1 15) (Date.mk 2025 3 10) (by decide) (by decide)
    (by decide)).1

/-! ## Administrative cost expansion: closed forms -/

theorem adminLoop_zero (amt : ℚ) (step : ℤ) (endD : Date) (cur : Date) :
    adminLoop amt step endD 0 cur = [] := rfl

theorem adminLoop_succ (amt : ℚ) (step : ℤ) (endD : Date) (fuel : ℕ) (cur : Date) :
    adminLoop amt step endD (fuel + 1) cur =
      if dateLe cur endD then
        ((cur.year, cur.month), amt) :: adminLoop amt step endD fuel (addMonthsClamped cur step)
      else [] := rfl

theorem adminLoop_guard_false (amt : ℚ) (step : ℤ) (endD : Date) (fuel : ℕ) (cur : Date)
    (h : ¬ dateLe cur endD) : adminLoop amt step endD fuel cur = [] := by
  cases fuel with
  | zero => rfl
  | succ f => rw [adminLoop_succ, if_neg h]

theorem adminLoop1_closed (amt : ℚ) (e : Date) (hed : 1 ≤ e.day) (fuel : ℕ) :
    ∀ cur : Date, cur.day = 1 → 1 ≤ cur.month → cur.month ≤ 12 →
      monthIndex cur ≤ monthIndex e →
      monthIndex e - monthIndex cur + 1 ≤ (fuel : ℤ) →
      adminLoop amt 1 e fuel cur =
        (List.range ((monthIndex e - monthIndex cur + 1).toNat)).map
          (fun k : ℕ => (pairOfIndex (monthIndex cur + (k : ℤ)), amt)) := by
  induction fuel with
  | zero =>
    intro cur _ _ _ hle hf
    exfalso
    simp only [Nat.cast_zero] at hf
    omega
  | succ f ih =>
    intro cur hday h1 h2 hle hf
    have hg : dateLe cur e := by
      unfold dateLe
      rcases lt_or_eq_of_le hle with h | h
      · exact Or.inl h
      · exact Or.inr ⟨h, by omega⟩
    rw [adminLoop_succ, if_pos hg]
    have hmi2 : monthIndex (addMonthsClamped cur 1) = monthIndex cur + 1 :=
      monthIndex_addMonthsClamped cur 1
    by_cases hnext : monthIndex cur + 1 ≤ monthIndex e
    · have htail := ih (addMonthsClamped cur 1) (addMonthsClamped_day_one cur hday 1)
        (addMonthsClamped_month_bounds cur 1).1 (addMonthsClamped_month_bounds cur 1).2
        (by omega) (by push_cast at hf ⊢; omega)
      rw [htail]
      rw [show (monthIndex e - monthIndex cur + 1).toNat =
        (monthIndex e - monthIndex (addMonthsClamped cur 1) + 1).toNat + 1 from by omega]
      rw [List.range_succ_eq_map, List.map_cons, List.map_map]
      congr 1
      · rw [Nat.cast_zero, add_zero, pairOfIndex_eq cur h1 h2]
      · apply List.map_congr_left
        intro k _
        simp only [Function.comp]
        rw [show monthIndex (addMonthsClamped cur 1) + (k : ℤ) =
          monthIndex cur + ((k + 1 : ℕ) : ℤ) from by push_cast; omega]
    · have htail := adminLoop_guard_false amt 1 e f (addMonthsClamped cur 1) (by
        unfold dateLe
        omega)
      rw [htail]
      rw [show (monthIndex e - monthIndex cur + 1).toNat = 1 from by omega]
      rw [show List.range 1 = [0] from rfl, List.map_cons, List.map_nil]
      rw [Nat.cast_zero, add_zero, pairOfIndex_eq cur h1 h2]

theorem adminLoop3_closed (amt : ℚ) (e : Date) (hed : 1 ≤ e.day) (fuel : ℕ) :
    ∀ cur : Date, cur.day = 1 → 1 ≤ cur.month → cur.month ≤ 12 →
      monthIndex cur ≤ monthIndex e →
      (monthIndex e - monthIndex cur) / 3 + 1 ≤ (fuel : ℤ) →
      adminLoop amt 3 e fuel cur =
        (List.range (((monthIndex e - monthIndex cur) / 3 + 1).toNat)).map
          (fun k : ℕ => (pairOfIndex (monthIndex cur + 3 * (k : ℤ)), amt)) := by
  induction fuel with
  | zero =>
    intro cur _ _ _ hle hf
    exfalso
    simp only [Nat.cast_zero] at hf
    omega
  | succ f ih =>
    intro cur hday h1 h2 hle hf
    have hg : dateLe cur e := by
      unfold dateLe
      rcases lt_or_eq_of_le hle with h | h
      · exact Or.inl h
      · exact Or.inr ⟨h, by omega⟩
    rw [adminLoop_succ, if_pos hg]
    have hmi2 : monthIndex (addMonthsClamped cur 3) = monthIndex cur + 3 :=
      monthIndex_addMonthsClamped cur 3
    by_cases hnext : monthIndex cur + 3 ≤ monthIndex e
    · have htail := ih (addMonthsClamped cur 3) (addMonthsClamped_day_one cur hday 3)
        (addMonthsClamped_month_bounds cur 3).1 (addMonthsClamped_month_bounds cur 3).2
        (by omega) (by push_cast at hf ⊢; omega)
      rw [htail]
      rw [show ((monthIndex e - monthIndex cur) / 3 + 1).toNat =
        ((monthIndex e - monthIndex (addMonthsClamped cur 3)) / 3 + 1).toNat + 1 from by
          omega]
      rw [List.range_succ_eq_map, List.map_cons, List.map_map]
      congr 1
      · rw [Nat.cast_zero, mul_zero, add_zero, pairOfIndex_eq cur h1 h2]
      · apply List.map_congr_left
        intro k _
        simp only [Function.comp]
        rw [show monthIndex (addMonthsClamped cur 3) + 3 * (k : ℤ) =
          monthIndex cur + 3 * ((k + 1 : ℕ) : ℤ) from by push_cast; omega]
    · have htail := adminLoop_guard_false amt 3 e f (addMonthsClamped cur 3) (by
        unfold dateLe
        omega)
      rw [htail]
      rw [show ((monthIndex e - monthIndex cur) / 3 + 1).toNat = 1 from by omega]
      rw [show List.range 1 = [0] from rfl, List.map_cons, List.map_nil]
      rw [Nat.cast_zero, mul_zero, add_zero, pairOfIndex_eq cur h1 h2]

theorem admin_example_eval :
    generate_admin_cost 3 (Date.mk 2025 1 1) (Date.mk 2025 12 31) Freq.quarterly =
      [((2025, 1), 9), ((2025, 4), 9), ((2025, 7), 9), ((2025, 10), 9)] := by
  show adminLoop (round2 (3 * 3)) 3 (Date.mk 2025 12 31)
    (monthIndex (Date.mk 2025 12 31) + 1 - monthIndex (Date.mk 2025 1 1)).toNat
    { year := 2025, month := 1, day := 1 } = _
  rw [show (monthIndex (Date.mk 2025 12 31) + 1 - monthIndex (Date.mk 2025 1 1)).toNat = 12
    from by decide]
  norm_num [adminLoop_succ, adminLoop_zero, dateLe, monthIndex, addMonthsClamped,
    daysInMonth, isLeapYear, round2, round_eq]

/-- C4: the admin cost expander emits, for monthly frequency, one event
of amount M per calendar month from the start month through the end month
inclusive; for quarterly frequency one event of amount 3M every third
month starting at the start month while the event month is not after the
end date (rate 3 over 2025-01-01..2025-12-31 gives exactly four events of
9.00 at 2025-01, 2025-04, 2025-07, 2025-10); and for yearly frequency
exactly one event of amount 12M at the start month regardless of the span
(amounts stored with presentation rounding round2, the identity on
cent-quantized values). -/
theorem C4_admin_expansion (M : ℚ) (s e : Date) (hs : validDate s) (he : validDate e)
    (hle : dateLe s e) :
    generate_admin_cost M s e Freq.monthly =
      (List.range ((monthIndex e - monthIndex s + 1).toNat)).map
        (fun k : ℕ => (pairOfIndex (monthIndex s + (k : ℤ)), round2 M)) ∧
    generate_admin_cost M s e Freq.quarterly =
      (List.range (((monthIndex e - monthIndex s) / 3 + 1).toNat)).map
        (fun k : ℕ => (pairOfIndex (monthIndex s + 3 * (k : ℤ)), round2 (M * 3))) ∧
    generate_admin_cost M s e Freq.yearly = [((s.year, s.month), round2 (M * 12))] ∧
    (∀ q : ℚ, (∃ z : ℤ, q = z / 100) → round2 q = q) ∧
    generate_admin_cost 3 (Date.mk 2025 1 1) (Date.mk 2025 12 31) Freq.quarterly =
      [((2025, 1), 9), ((2025, 4), 9), ((2025, 7), 9), ((2025, 10), 9)] := by
  have hmi : monthIndex s ≤ monthIndex e := dateLe_monthIndex_le hle
  have hcur : monthIndex { year := s.year, month := s.month, day := 1 } = monthIndex s := rfl
  have hs' := hs
  have he' := he
  unfold validDate at hs' he'
  obtain ⟨hs1, hs2, _, _⟩ := hs'
  obtain ⟨_, _, he3, _⟩ := he'
  refine ⟨?_, ?_, rfl, fun q h => round2_eq_self_of_cent q h, admin_example_eval⟩
  · exact adminLoop1_closed (round2 M) e he3 ((monthIndex e + 1 - monthIndex s).toNat)
      { year := s.year, month := s.month, day := 1 } rfl hs1 hs2 hmi (by omega)
  · exact adminLoop3_closed (round2 (M * 3)) e he3 ((monthIndex e + 1 - monthIndex s).toNat)
      { year := s.year, month := s.month, day := 1 } rfl hs1 hs2 hmi (by omega)

/-- Witness for C4: the yearly single-event clause at a multi-year span. -/
theorem C4_admin_witness :
    generate_admin_cost 5 (Date.mk 2025 3 4) (Date.mk 2027 8 9) Freq.yearly =
      [((2025, 3), round2 (5 * 12))] :=
  (C4_admin_expansion 5 (Date.mk 2025 3 4) (Date.mk 2027 8 9) (by decide) (by decide)
    (by decide)).2.2.1

/-! ## C5: budget aggregation -/

theorem lookup0_eq_zero (l : List ((ℤ × ℤ) × ℚ)) (m : ℤ × ℤ)
    (h : m ∉ l.map Prod.fst) : lookup0 l m = 0 := by
  induction l with
  | nil => rfl
  | cons kv rest ih =>
    obtain ⟨k, v⟩ := kv
    simp only [List.map_cons, List.mem_cons] at h
    push_neg at h
    unfold lookup0
    rw [if_neg fun hk => h.1 hk.symm]
    exact ih h.2

theorem monthKeyLt_of_le_of_ne {a b : ℤ × ℤ} (h1 : monthKeyLe a b) (h2 : a ≠ b) :
    monthKeyLt a b := by
  unfold monthKeyLe at h1
  unfold monthKeyLt
  rcases h1 with h | ⟨hy, hm⟩
  · exact Or.inl h
  · right
    refine ⟨hy, lt_of_le_of_ne hm fun hmm => h2 ?_⟩
    exact Prod.ext hy hmm

theorem mem_sortMonths_iff (l : List (ℤ × ℤ)) (x : ℤ × ℤ) :
    x ∈ sortMonths l.dedup ↔ x ∈ l := by
  unfold sortMonths
  rw [(List.perm_insertionSort monthKeyLe l.dedup).mem_iff, List.mem_dedup]

/-- C5: the set of output month keys of the budget aggregator is exactly
the union of the month keys of the six category series; a month missing
from a category contributes 0 (never absence) to that column; every row
satisfies totalRevenue = revenue + occasional income, totalExpense =
material + labor + admin + occasional expense and grossProfit =
totalRevenue - totalExpense; and the rows are in strict chronological
month order. -/
theorem C5_budget_aggregation (rev mat lab adm occI occE : List ((ℤ × ℤ) × ℚ)) :
    (∀ m : ℤ × ℤ, m ∈ (buildLedger rev mat lab adm occI occE).map LedgerRow.month ↔
      (m ∈ rev.map Prod.fst ∨ m ∈ mat.map Prod.fst ∨ m ∈ lab.map Prod.fst ∨
        m ∈ adm.map Prod.fst ∨ m ∈ occI.map Prod.fst ∨ m ∈ occE.map Prod.fst)) ∧
    (∀ row ∈ buildLedger rev mat lab adm occI occE,
      row.revenue = lookup0 rev row.month ∧
      row.material = lookup0 mat row.month ∧
      row.labor = lookup0 lab row.month ∧
      row.admin = lookup0 adm row.month ∧
      row.occIncome = lookup0 occI row.month ∧
      row.occExpense = lookup0 occE row.month ∧
      (row.month ∉ rev.map Prod.fst → row.revenue = 0) ∧
      (row.month ∉ mat.map Prod.fst → row.material = 0) ∧
      (row.month ∉ lab.map Prod.fst → row.labor = 0) ∧
      (row.month ∉ adm.map Prod.fst → row.admin = 0) ∧
      (row.month ∉ occI.map Prod.fst → row.occIncome = 0) ∧
      (row.month ∉ occE.map Prod.fst → row.occExpense = 0) ∧
      row.totalRevenue = row.revenue + row.occIncome ∧
      row.totalExpense = row.material + row.labor + row.admin + row.occExpense ∧
      row.grossProfit = row.totalRevenue - row.totalExpense) ∧
    List.Pairwise monthKeyLt
      ((buildLedger rev mat lab adm occI occE).map LedgerRow.month) := by
  refine ⟨?_, ?_, ?_⟩
  · intro m
    unfold buildLedger
    rw [List.map_map, List.mem_map]
    constructor
    · rintro ⟨a, ha, hm⟩
      simp only [Function.comp_apply] at hm
      subst hm
      have := (mem_sortMonths_iff _ a).mp ha
      simpa [List.mem_append, or_assoc] using this
    · intro h
      refine ⟨m, (mem_sortMonths_iff _ m).mpr ?_, rfl⟩
      simpa [List.mem_append, or_assoc] using h
  · intro row hrow
    unfold buildLedger at hrow
    rw [List.mem_map] at hrow
    obtain ⟨m, _, rfl⟩ := hrow
    refine ⟨rfl, rfl, rfl, rfl, rfl, rfl, ?_, ?_, ?_, ?_, ?_, ?_, rfl, rfl, rfl⟩ <;>
      exact fun h => lookup0_eq_zero _ _ h
  · have hsorted : List.Sorted monthKeyLe (sortMonths ((rev.map Prod.fst ++
        mat.map Prod.fst ++ lab.map Prod.fst ++ adm.map Prod.fst ++ occI.map Prod.fst ++
        occE.map Prod.fst).dedup)) :=
      List.sorted_insertionSort monthKeyLe _
    have hnodup : (sortMonths ((rev.map Prod.fst ++ mat.map Prod.fst ++ lab.map Prod.fst ++
        adm.map Prod.fst ++ occI.map Prod.fst ++ occE.map Prod.fst).dedup)).Nodup :=
      (List.perm_insertionSort monthKeyLe _).nodup_iff.mpr (List.nodup_dedup _)
    have hp : List.Pairwise monthKeyLt (sortMonths ((rev.map Prod.fst ++
        mat.map Prod.fst ++ lab.map Prod.fst ++ adm.map Prod.fst ++ occI.map Prod.fst ++
        occE.map Prod.fst).dedup)) :=
      (List.Pairwise.and hsorted hnodup).imp fun h => monthKeyLt_of_le_of_ne h.1 h.2
    unfold buildLedger
    rw [List.map_map, List.pairwise_map]
    exact hp

/-- Witness for C5 on a two-category input. -/
theorem C5_budget_witness :
    c5row.totalExpense = c5row.material + c5row.labor + c5row.admin + c5row.occExpense :=
  (((C5_budget_aggregation [((2025, 2), 7)] [((2025, 1), 3)] [] [] [] []).2.1 c5row (by
    unfold buildLedger
    have hms : sortMonths ((([((2025, 2), 7)] : List ((ℤ × ℤ) × ℚ)).map Prod.fst ++
        (([((2025, 1), 3)] : List ((ℤ × ℤ) × ℚ))).map Prod.fst ++
        (([] : List ((ℤ × ℤ) × ℚ))).map Prod.fst ++
        (([] : List ((ℤ × ℤ) × ℚ))).map Prod.fst ++
        (([] : List ((ℤ × ℤ) × ℚ))).map Prod.fst ++
        (([] : List ((ℤ × ℤ) × ℚ))).map Prod.fst).dedup) = [(2025, 1), (2025, 2)] := by
      decide
    rw [hms]
    norm_num [lookup0, c5row])).2.2.2.2.2.2.2.2.2.2.2.2.2.1)

end SalesPred
